import Mathlib

/-!
Verification of the VulnScan scan-orchestration contract.

The visible repository is the React dashboard of a vulnerability scanner;
the backend it talks to is described by `spec.md` and
`docs/API_DOCUMENTATION.md` and consumed through fetch calls in
`src/pages/NewScanPage.jsx`, `src/components/ScanHistory.jsx` and
`src/components/ScanResult.jsx`.  This file embeds:

* the ScanJob data model and its state machine (modelled from the spec,
  §3–§5, since the backend implementation is not part of the repository);
* the target validator, report generator, download endpoint and scan
  store (likewise modelled from the spec);
* the dashboard-side functions that are present in the source: the
  scan-id prefix stripping (`scanId.replace('s_', '')`), the URLs each
  handler builds, and the download handler's file construction.

Theorems at the end settle the frozen claims about this contract.
-/

namespace VulnScan

/-- Scan depth setting, `quick` or `full` (spec §3, glossary). -/
inductive Mode
  | quick
  | full
deriving DecidableEq, Repr

/-- Lifecycle status of a ScanJob (spec §3). -/
inductive Status
  | queued
  | running
  | completed
  | failed
  | canceled
deriving DecidableEq, Repr

/-- Severity rubric for findings (spec §3, glossary). -/
inductive Severity
  | critical
  | high
  | medium
  | low
  | info
deriving DecidableEq, Repr

/-- A single detected issue (spec §3, `Finding`). -/
structure Finding where
  fid : String
  severity : Severity
  name : String
  path : String
  description : String
  impact : String
  remediation : String
  references : List String
  fstatus : String
deriving DecidableEq, Repr

/-- One scan execution instance (spec §3, `ScanJob`).  `createdAt` and
`startedAt` are abstract timestamps; `owner` is the opaque owner
identifier the spec says the core is handed. -/
structure ScanJob where
  scanId : String
  target : String
  mode : Mode
  status : Status
  progress : Nat
  createdAt : Nat
  startedAt : Option Nat
  owner : Nat
  findings : List Finding
deriving DecidableEq, Repr

/-- Error taxonomy (spec §7). -/
inductive ScanError
  | invalidTarget
  | unsupportedFormat
  | notFound
  | conflict
deriving DecidableEq, Repr

/-- Modelled from the spec: the HTTP status each error maps to
(spec §6 table and §7 "every failure maps to one HTTP status"). -/
def httpStatusOf : ScanError → Nat
  | .invalidTarget => 400
  | .unsupportedFormat => 400
  | .notFound => 404
  | .conflict => 409

/-- Modelled from the spec: a freshly submitted job — created on
submission with `status = queued`, `progress = 0`, not yet started and
with no findings (spec §3 lifecycle). -/
def mkJob (id target : String) (mode : Mode) (now owner : Nat) : ScanJob :=
  { scanId := id
    target := target
    mode := mode
    status := .queued
    progress := 0
    createdAt := now
    startedAt := none
    owner := owner
    findings := [] }

/-- Events the scheduler/runner or a cancellation handler can apply to a
single job (spec §4.2, §4.3). -/
inductive Action
  | start (t : Nat)
  | progressUpd (p : Nat)
  | complete (fs : List Finding)
  | fail
  | cancel
deriving DecidableEq, Repr

/-- Whether a status is terminal (spec glossary: completed, failed or
canceled — no further transitions allowed). -/
def isTerminal : Status → Bool
  | .completed => true
  | .failed => true
  | .canceled => true
  | .queued => false
  | .running => false

/-- Modelled from the spec: the ScanJob state machine (spec §4.2).
The backend implementation is absent from the repository, so the
transitions are taken verbatim from the spec:
* `queued→running` records `startedAt`;
* progress updates happen only while running, are monotone (spec §5
  "progress updates for a given job are monotonic") and stay below 100
  (spec §3: `progress == 100` iff `status == completed`; 100 is only
  assigned by the completion transition);
* `running→completed` forces `progress` to 100 and materialises the
  findings (spec §3: findings are created only when the job completes);
* `running→failed` preserves partial progress;
* `running→canceled` and `queued→canceled` discard findings (spec §4.2
  policy: already-discovered findings are discarded on cancellation);
* terminal states admit no transition at all. -/
def stepFn (j : ScanJob) : Action → Option ScanJob
  | .start t =>
      if j.status = .queued then
        some { j with status := .running, startedAt := some t }
      else none
  | .progressUpd p =>
      if j.status = .running ∧ j.progress ≤ p ∧ p < 100 then
        some { j with progress := p }
      else none
  | .complete fs =>
      if j.status = .running then
        some { j with status := .completed, progress := 100, findings := fs }
      else none
  | .fail =>
      if j.status = .running then
        some { j with status := .failed }
      else none
  | .cancel =>
      if j.status = .queued ∨ j.status = .running then
        some { j with status := .canceled, findings := [] }
      else none

/-- One scheduler step between two job states. -/
def JobStep (j k : ScanJob) : Prop := ∃ a, stepFn j a = some k

/-- Reachability along scheduler steps. -/
def Reach : ScanJob → ScanJob → Prop := Relation.ReflTransGen JobStep

/-- The transition edges the spec allows between statuses (spec §4.2
diagram `queued → running → {completed|failed|canceled}`, plus
`queued → canceled`; a progress update keeps the job running). -/
def allowedEdge : Status → Status → Bool
  | .queued, .running => true
  | .queued, .canceled => true
  | .running, .running => true
  | .running, .completed => true
  | .running, .failed => true
  | .running, .canceled => true
  | _, _ => false

/-- The progress/status invariant of spec §3: `progress == 100` iff
`status == completed`. -/
def ProgressInv (j : ScanJob) : Prop := j.progress = 100 ↔ j.status = .completed

/-- The decimal digit character for a value below ten. -/
def digitChar (n : Nat) : Char := Char.ofNat (48 + n)

/-- Decimal digit list of a natural number, most significant first. -/
def digitsOf (n : Nat) : List Char :=
  if _h : n < 10 then [digitChar n]
  else digitsOf (n / 10) ++ [digitChar (n % 10)]
decreasing_by exact Nat.div_lt_self (by omega) (by omega)

/-- Numeric value of a decimal digit character. -/
def digitVal (c : Char) : Nat := c.toNat - 48

/-- Read a decimal digit list back into a number. -/
def parseDigits (cs : List Char) : Nat :=
  cs.foldl (fun a c => a * 10 + digitVal c) 0

/-- Modelled from the spec: scanId generation.  The spec calls `scanId`
"unique, opaque, prefixed" and the API documentation shows the form
`"s_67890"`; the backend that mints them is not part of the repository,
so the id is modelled as the prefix `s_` followed by the decimal digits
of a store-level counter. -/
def renderScanId (n : Nat) : String := ⟨'s' :: '_' :: digitsOf n⟩

/-- JavaScript `s.replace(pat, repl)` with a string pattern: replaces the
first occurrence of `pat` in `s`, or returns `s` unchanged when `pat`
does not occur (char-list level).  Embeds the `.replace('s_', '')` calls
of `NewScanPage.jsx` and `ScanHistory.jsx`. -/
def jsReplaceFirst (pat repl : List Char) : List Char → List Char
  | [] => if pat = [] then repl else []
  | c :: cs =>
      if pat.isPrefixOf (c :: cs) then repl ++ (c :: cs).drop pat.length
      else c :: jsReplaceFirst pat repl cs

/-- `scanId.replace('s_', '')` as performed by the dashboard before
every per-scan request (`NewScanPage.jsx` polling effect,
`handleCancelScan`, `handleViewReport`, `handleDownloadReport`;
`ScanHistory.jsx` row navigation). -/
def stripScanId (scanId : String) : String :=
  ⟨jsReplaceFirst ['s', '_'] [] scanId.data⟩

/-! ## Target validator (modelled from the spec, §4.1)

The backend validator is not part of the repository; the dashboard only
refuses blank input (`if (!url.trim())` in `handleStartScan`).  The
functions below model the spec's contract: accept a well-formed URL,
IPv4/IPv6 address or CIDR range, reject empty/whitespace-only input and
malformed hosts, and return a canonical form whose scheme defaults to
`https://` when omitted. -/

/-- ASCII whitespace, as trimmed from the raw target. -/
def isWs (c : Char) : Bool := c == ' ' || c == '\t' || c == '\n' || c == '\r'

/-- Trim leading and trailing whitespace from a character list. -/
def trimChars (cs : List Char) : List Char :=
  ((cs.dropWhile isWs).reverse.dropWhile isWs).reverse

/-- Characters permitted in a hostname label. -/
def isHostChar (c : Char) : Bool := c.isAlphanum || c == '-' || c == '.'

/-- Modelled from the spec: a plausible hostname — nonempty, made of
alphanumerics, hyphens and dots, not starting or ending with a dot. -/
def isHostnameChars (cs : List Char) : Bool :=
  !cs.isEmpty && cs.all isHostChar && cs.head? != some '.' && cs.getLast? != some '.'

/-- One dotted-quad component: one to three digits valued at most 255. -/
def isIPv4Part (cs : List Char) : Bool :=
  !cs.isEmpty && cs.length ≤ 3 && cs.all Char.isDigit && parseDigits cs ≤ 255

/-- Modelled from the spec: an IPv4 dotted-quad address. -/
def isIPv4Chars (cs : List Char) : Bool :=
  let ps := cs.splitOn '.'
  ps.length == 4 && ps.all isIPv4Part

/-- Modelled from the spec: a CIDR range `a.b.c.d/n` with `n ≤ 32`. -/
def isCIDRChars (cs : List Char) : Bool :=
  match cs.splitOn '/' with
  | [ip, pre] =>
      isIPv4Chars ip && !pre.isEmpty && pre.all Char.isDigit && parseDigits pre ≤ 32
  | _ => false

/-- Characters permitted in an IPv6 literal. -/
def isIPv6Char (c : Char) : Bool :=
  c.isDigit || ('a' ≤ c && c ≤ 'f') || ('A' ≤ c && c ≤ 'F') || c == ':'

/-- Modelled from the spec: a coarse IPv6 literal — nonempty, hex digits
and colons, with at least one colon. -/
def isIPv6Chars (cs : List Char) : Bool :=
  cs.contains ':' && !cs.isEmpty && cs.all isIPv6Char

/-- An acceptable scan host: IPv4, CIDR, IPv6 or hostname. -/
def validHostChars (cs : List Char) : Bool :=
  isIPv4Chars cs || isCIDRChars cs || isIPv6Chars cs || isHostnameChars cs

/-- The host portion of the part after the scheme (up to the first `/`). -/
def hostPart (cs : List Char) : List Char := cs.takeWhile (fun c => c ≠ '/')

def httpScheme : List Char := "http://".data

def httpsScheme : List Char := "https://".data

/-- Modelled from the spec: the Target Validator (§4.1).  Trims the raw
string; rejects empty/whitespace-only input and malformed hosts with
`InvalidTargetError`; accepts URLs with an explicit `http://` or
`https://` scheme as given, and defaults the scheme to `https://` when
omitted.  Pure function of its argument. -/
def validateTargetChars (raw : List Char) : Except ScanError (List Char) :=
  let s := trimChars raw
  if s.isEmpty then .error .invalidTarget
  else if httpScheme.isPrefixOf s then
    if validHostChars (hostPart (s.drop 7)) then .ok s else .error .invalidTarget
  else if httpsScheme.isPrefixOf s then
    if validHostChars (hostPart (s.drop 8)) then .ok s else .error .invalidTarget
  else if validHostChars (hostPart s) then .ok (httpsScheme ++ s)
  else .error .invalidTarget

/-- String-level wrapper around the Target Validator. -/
def validateTarget (raw : String) : Except ScanError String :=
  (validateTargetChars raw.data).map fun cs => ⟨cs⟩

/-- Whether a canonical target carries an explicit scheme. -/
def hasScheme (t : String) : Bool :=
  httpScheme.isPrefixOf t.data || httpsScheme.isPrefixOf t.data

/-! ## Scan store and submission (modelled from the spec, §4.6 and §6) -/

/-- Modelled from the spec: the Scan Store — the job table keyed by
`scanId` plus the counter that mints fresh ids. -/
structure Store where
  nextId : Nat
  jobs : List ScanJob
deriving DecidableEq, Repr

/-- Modelled from the spec: `POST /scans/` — validate the raw target;
on failure return the error and leave the store untouched (no ScanJob is
created); on success mint a fresh prefixed `scanId` and insert a new
`queued` job. -/
def submitScan (st : Store) (raw : String) (mode : Mode) (now owner : Nat) :
    Store × Except ScanError ScanJob :=
  match validateTarget raw with
  | .error e => (st, .error e)
  | .ok tgt =>
      let j := mkJob (renderScanId st.nextId) tgt mode now owner
      ({ nextId := st.nextId + 1, jobs := j :: st.jobs }, .ok j)

/-- Store sanity: every stored id was minted below the counter, and the
stored ids are pairwise distinct. -/
def StoreWf (st : Store) : Prop :=
  (∀ j ∈ st.jobs, ∃ n, n < st.nextId ∧ j.scanId = renderScanId n)
  ∧ (st.jobs.map ScanJob.scanId).Nodup

/-- Modelled from the spec: the backend's per-scan routes are addressed
by the bare numeric identifier (the dashboard always requests
`/scans/{scanId.replace('s_','')}/…`), so route resolution looks the
prefixed id back up in the job table. -/
def lookupScanByNumeric (st : Store) (numericId : String) : Option ScanJob :=
  st.jobs.find? fun j => j.scanId == "s_" ++ numericId

/-! ## Report generator (modelled from the spec, §4.5, and the report
shape in `docs/API_DOCUMENTATION.md`) -/

/-- The wire name of a severity level. -/
def sevName : Severity → String
  | .critical => "critical"
  | .high => "high"
  | .medium => "medium"
  | .low => "low"
  | .info => "info"

/-- How many stored findings carry a given severity. -/
def countSev (s : Severity) (fs : List Finding) : Nat :=
  fs.countP fun f => f.severity == s

/-- Aggregated severity counts of a report (spec §3 `Report.summary`,
API documentation `summary` object). -/
structure Summary where
  critical : Nat
  high : Nat
  medium : Nat
  low : Nat
  info : Nat
  total : Nat
deriving DecidableEq, Repr

/-- Modelled from the spec: deterministic aggregation of a job's
findings into the per-severity counts and the total. -/
def summaryOf (fs : List Finding) : Summary :=
  { critical := countSev .critical fs
    high := countSev .high fs
    medium := countSev .medium fs
    low := countSev .low fs
    info := countSev .info fs
    total := fs.length }

/-- A report: a computed view over a ScanJob's findings (spec §3). -/
structure Report where
  summary : Summary
  vulnerabilities : List Finding
deriving DecidableEq, Repr

/-- Modelled from the spec: `GET /scans/{id}/report` content — derived,
never stored independently. -/
def reportOf (j : ScanJob) : Report :=
  { summary := summaryOf j.findings, vulnerabilities := j.findings }

/-- Wrap a string in JSON quotes (content assumed quote-free). -/
def quoteJSON (s : String) : String := "\"" ++ s ++ "\""

/-- Join rendered fragments with a separator. -/
def joinWith (sep : String) : List String → String
  | [] => ""
  | [x] => x
  | x :: xs => x ++ sep ++ joinWith sep xs

/-- Deterministic JSON rendering of one finding, field order fixed as in
the API documentation. -/
def findingJSON (f : Finding) : String :=
  "\x7b\"id\":" ++ quoteJSON f.fid
    ++ ",\"severity\":" ++ quoteJSON (sevName f.severity)
    ++ ",\"name\":" ++ quoteJSON f.name
    ++ ",\"path\":" ++ quoteJSON f.path
    ++ ",\"description\":" ++ quoteJSON f.description
    ++ ",\"impact\":" ++ quoteJSON f.impact
    ++ ",\"remediation\":" ++ quoteJSON f.remediation
    ++ ",\"references\":[" ++ joinWith "," (f.references.map quoteJSON) ++ "]"
    ++ ",\"status\":" ++ quoteJSON f.fstatus ++ "\x7d"

/-- Deterministic JSON rendering of a summary. -/
def summaryJSON (s : Summary) : String :=
  "\x7b\"total\":" ++ toString s.total
    ++ ",\"critical\":" ++ toString s.critical
    ++ ",\"high\":" ++ toString s.high
    ++ ",\"medium\":" ++ toString s.medium
    ++ ",\"low\":" ++ toString s.low
    ++ ",\"info\":" ++ toString s.info ++ "\x7d"

/-- Modelled from the spec: the JSON export — a pure function of the
stored findings (spec §4.5 "same Findings ⇒ byte-identical JSON"). -/
def exportJSON (fs : List Finding) : String :=
  "\x7b\"summary\":" ++ summaryJSON (summaryOf fs)
    ++ ",\"vulnerabilities\":[" ++ joinWith "," (fs.map findingJSON) ++ "]\x7d"

/-- Modelled from the spec: the CSV export, one row per finding. -/
def exportCSV (fs : List Finding) : String :=
  "id,severity,name,path\n"
    ++ joinWith "\n" (fs.map fun f =>
        f.fid ++ "," ++ sevName f.severity ++ "," ++ f.name ++ "," ++ f.path)

/-- Modelled from the spec: the HTML export; layout may vary but the
content is the findings, so the model renders the deterministic rows. -/
def exportHTML (fs : List Finding) : String :=
  "<html><body>"
    ++ joinWith "" (fs.map fun f =>
        "<li>" ++ sevName f.severity ++ ": " ++ f.name ++ "</li>")
    ++ "</body></html>"

/-- Modelled from the spec: the PDF export; binary layout is out of
scope, so the model keeps only the deterministic content stream. -/
def exportPDF (fs : List Finding) : String := "%PDF " ++ exportJSON fs

/-- Modelled from the spec: report generation invoked at wall-clock
instant `now`.  The spec requires regeneration at any time to be
byte-for-byte reproducible from the persisted findings, so the
generator reads only the findings and ignores the clock and every other
job field. -/
def generateReportJSON (_now : Nat) (j : ScanJob) : String := exportJSON j.findings

/-- Modelled from the spec: CSV generation at instant `now`; like the
JSON export it depends only on the stored findings. -/
def generateReportCSV (_now : Nat) (j : ScanJob) : String := exportCSV j.findings

/-! ## Download endpoint (spec §4.5/§6; API documentation
`GET /api/scans/{scanId}/download`) -/

/-- The export formats the Report Generator produces (spec §4.5 names
PDF, JSON, CSV and HTML; the dashboard's `handleDownloadReport` handles
`json`, `html` and the pdf default). -/
def supportedFormats : List String := ["pdf", "json", "csv", "html"]

/-- Modelled from the spec: `GET /scans/{id}/download?format=` — serve
the export for a supported format, otherwise fail with
`UnsupportedFormatError` (maps to 400) and produce no file. -/
def downloadReport (j : ScanJob) (format : String) : Except ScanError String :=
  if format ∈ supportedFormats then
    if format = "json" then .ok (exportJSON j.findings)
    else if format = "csv" then .ok (exportCSV j.findings)
    else if format = "html" then .ok (exportHTML j.findings)
    else .ok (exportPDF j.findings)
  else .error .unsupportedFormat

/-- The file name `handleDownloadReport` gives the blob it saves
(`NewScanPage.jsx` lines 512–539). -/
def downloadFileName (scanId format : String) : String :=
  "scan_" ++ scanId ++ "_report."
    ++ (if format = "json" then "json" else if format = "html" then "html" else "pdf")

/-- The file `handleDownloadReport` materialises on the client: on a
non-ok response it throws and creates nothing; on success it saves the
body under the formatted name (`NewScanPage.jsx` lines 506–539). -/
def frontendDownloadFile (response : Except ScanError String)
    (scanId format : String) : Option (String × String) :=
  match response with
  | .error _ => none
  | .ok content => some (downloadFileName scanId format, content)

/-! ## Dashboard request URLs (the `.replace('s_','')` call sites) -/

/-- `API_BASE_URL` in `NewScanPage.jsx` / `ScanHistory.jsx`. -/
def apiBaseUrl : String := "http://127.0.0.1:8000"

/-- The URL `ScanResult.jsx` fetches the report from (lines 49–51). -/
def reportFetchUrl (scanId : String) : String :=
  apiBaseUrl ++ "/scans/" ++ stripScanId scanId ++ "/report/"

/-- The URL the polling effect fetches every 2 s
(`NewScanPage.jsx` lines 341–342). -/
def pollScanUrl (scanId : String) : String :=
  apiBaseUrl ++ "/scans/" ++ stripScanId scanId ++ "/"

/-- The URL `handleCancelScan` posts to (`NewScanPage.jsx` 437–438). -/
def cancelScanUrl (scanId : String) : String :=
  apiBaseUrl ++ "/scans/" ++ stripScanId scanId ++ "/cancel/"

/-- The URL `handleDownloadReport` fetches (`NewScanPage.jsx` 500–501). -/
def downloadReportUrl (scanId format : String) : String :=
  apiBaseUrl ++ "/scans/" ++ stripScanId scanId ++ "/download?format=" ++ format

/-- The route `ScanHistory.jsx` navigates to on a row click (line 91),
also used by `handleViewReport` (`NewScanPage.jsx` 490–493). -/
def historyRowUrl (scanId : String) : String :=
  "/scans/" ++ stripScanId scanId

/-! ## History query (modelled from the spec, §4.6, and
`GET /api/scans/` in the API documentation) -/

/-- "More recent first": ordering by creation time descending. -/
def recentFirst (a b : ScanJob) : Prop := b.createdAt ≤ a.createdAt

instance : DecidableRel recentFirst := fun a b => Nat.decLe b.createdAt a.createdAt

instance : IsTotal ScanJob recentFirst := ⟨fun a b => le_total b.createdAt a.createdAt⟩

instance : IsTrans ScanJob recentFirst :=
  ⟨fun _ _ _ h1 h2 => le_trans h2 h1⟩

/-- Modelled from the spec: the Scan Store history query — the caller's
jobs, optionally filtered by status and mode, ordered by creation time
descending, then paginated with `offset`/`limit`. -/
def listScans (st : Store) (owner : Nat) (statusF : Option Status)
    (modeF : Option Mode) (limit offset : Nat) : List ScanJob :=
  let owned := st.jobs.filter fun j =>
    j.owner == owner
      && (match statusF with | none => true | some s => j.status == s)
      && (match modeF with | none => true | some m => j.mode == m)
  ((owned.insertionSort recentFirst).drop offset).take limit

deriving instance DecidableEq for Except

/-! ## Concrete fixtures used by the witnesses -/

/-- A freshly submitted example job. -/
def exJobQueued : ScanJob := mkJob "s_7" "https://example.com" .quick 5 1

/-- The example job after the scheduler picked it up. -/
def exJobRunning : ScanJob :=
  { exJobQueued with status := .running, startedAt := some 6 }

/-- The example job after an accepted cancellation. -/
def exJobCanceled : ScanJob :=
  { exJobQueued with status := .canceled, findings := [] }

/-- A concrete finding fixture (the SQL-injection example of the API
documentation). -/
def exFindingSql : Finding :=
  { fid := "vuln_001"
    severity := .critical
    name := "SQL Injection"
    path := "/login"
    description := "Unsanitized SQL query allows injection"
    impact := "Database exfiltration"
    remediation := "Use parameterized queries"
    references := ["https://owasp.org/Top10/A03_2021-Injection/"]
    fstatus := "new" }

/-- A second concrete finding fixture (the XSS example of the API
documentation). -/
def exFindingXss : Finding :=
  { fid := "vuln_002"
    severity := .high
    name := "XSS (Cross-Site Scripting)"
    path := "/search"
    description := "Reflected XSS via query parameter"
    impact := "Stealing session cookies"
    remediation := "HTML encode all user inputs before rendering"
    references := ["https://owasp.org/Top10/A07_2021-XSS/"]
    fstatus := "new" }

/-- A completed example job carrying the two findings. -/
def exJobCompleted : ScanJob :=
  { exJobRunning with
      status := .completed
      progress := 100
      findings := [exFindingSql, exFindingXss] }

/-- A completed scan of owner 1 created at instant `10 * i`, for the
history-query fixture. -/
def exScan (i : Nat) : ScanJob :=
  { scanId := "s_" ++ ⟨[digitChar (i % 10)]⟩
    target := "https://example.com"
    mode := .quick
    status := .completed
    progress := 100
    createdAt := 10 * i
    startedAt := some (10 * i + 1)
    owner := 1
    findings := [] }

/-- A store holding five completed scans of owner 1, deliberately out of
creation order. -/
def exStore5 : Store :=
  { nextId := 6, jobs := [exScan 2, exScan 5, exScan 1, exScan 3, exScan 4] }

/-- A two-job store whose ids were minted by the counter, for the
round-trip witness. -/
def exStoreRT : Store :=
  { nextId := 2
    jobs := [mkJob (renderScanId 0) "https://a.com" .quick 0 1,
             mkJob (renderScanId 1) "https://b.com" .full 1 1] }

/-! ## Theorems -/

theorem stepFn_cases {j k : ScanJob} {a : Action} (h : stepFn j a = some k) :
    (∃ t, j.status = .queued ∧ k = { j with status := .running, startedAt := some t })
    ∨ (∃ p, j.status = .running ∧ j.progress ≤ p ∧ p < 100 ∧ k = { j with progress := p })
    ∨ (∃ fs, j.status = .running ∧
        k = { j with status := .completed, progress := 100, findings := fs })
    ∨ (j.status = .running ∧ k = { j with status := .failed })
    ∨ ((j.status = .queued ∨ j.status = .running) ∧
        k = { j with status := .canceled, findings := [] }) := by
  cases a with
  | start t =>
      simp only [stepFn] at h
      split at h
      · injection h with h
        exact Or.inl ⟨t, by assumption, h.symm⟩
      · injection h
  | progressUpd p =>
      simp only [stepFn] at h
      split at h
      · injection h with h
        rename_i hc
        exact Or.inr (Or.inl ⟨p, hc.1, hc.2.1, hc.2.2, h.symm⟩)
      · injection h
  | complete fs =>
      simp only [stepFn] at h
      split at h
      · injection h with h
        exact Or.inr (Or.inr (Or.inl ⟨fs, by assumption, h.symm⟩))
      · injection h
  | fail =>
      simp only [stepFn] at h
      split at h
      · injection h with h
        exact Or.inr (Or.inr (Or.inr (Or.inl ⟨by assumption, h.symm⟩)))
      · injection h
  | cancel =>
      simp only [stepFn] at h
      split at h
      · injection h with h
        exact Or.inr (Or.inr (Or.inr (Or.inr ⟨by assumption, h.symm⟩)))
      · injection h

theorem stepFn_edge {j k : ScanJob} {a : Action} (h : stepFn j a = some k) :
    allowedEdge j.status k.status = true := by
  rcases stepFn_cases h with ⟨t, hs, rfl⟩ | ⟨p, hs, _, _, rfl⟩ | ⟨fs, hs, rfl⟩ |
    ⟨hs, rfl⟩ | ⟨hs, rfl⟩
  · simp [allowedEdge, hs]
  · simp [allowedEdge, hs]
  · simp [allowedEdge, hs]
  · simp [allowedEdge, hs]
  · rcases hs with hs | hs <;> simp [allowedEdge, hs]

theorem stepFn_terminal_none (j : ScanJob) (a : Action)
    (h : isTerminal j.status = true) : stepFn j a = none := by
  cases hs : j.status <;> rw [hs] at h <;> simp [isTerminal] at h <;>
    cases a <;> simp [stepFn, hs]

theorem stepFn_scanId {j k : ScanJob} {a : Action} (h : stepFn j a = some k) :
    k.scanId = j.scanId := by
  rcases stepFn_cases h with ⟨t, hs, rfl⟩ | ⟨p, hs, _, _, rfl⟩ | ⟨fs, hs, rfl⟩ |
    ⟨hs, rfl⟩ | ⟨hs, rfl⟩ <;> rfl

theorem stepFn_progress_mono {j k : ScanJob} {a : Action}
    (h : stepFn j a = some k) (hj : j.status = .running)
    (hk : k.status = .running) : j.progress ≤ k.progress := by
  rcases stepFn_cases h with ⟨t, hs, rfl⟩ | ⟨p, hs, hle, hlt, rfl⟩ | ⟨fs, hs, rfl⟩ |
    ⟨hs, rfl⟩ | ⟨hs, rfl⟩ <;> simp_all

theorem stepFn_progressInv {j k : ScanJob} {a : Action}
    (h : stepFn j a = some k) (hj : ProgressInv j) : ProgressInv k := by
  rcases stepFn_cases h with ⟨t, hs, rfl⟩ | ⟨p, hs, hle, hlt, rfl⟩ | ⟨fs, hs, rfl⟩ |
    ⟨hs, rfl⟩ | ⟨hs, rfl⟩
  · simp_all [ProgressInv]
  · simp_all [ProgressInv]; omega
  · simp_all [ProgressInv]
  · simp_all [ProgressInv]
  · rcases hs with hs | hs <;> simp_all [ProgressInv]

theorem mkJob_progressInv (id target : String) (mode : Mode) (now owner : Nat) :
    ProgressInv (mkJob id target mode now owner) := by
  simp [ProgressInv, mkJob]

theorem reach_progressInv {j k : ScanJob} (h : Reach j k) (hj : ProgressInv j) :
    ProgressInv k := by
  induction h with
  | refl => exact hj
  | tail _ hstep ih =>
      obtain ⟨a, ha⟩ := hstep
      exact stepFn_progressInv ha ih

theorem stepFn_not_queued {j k : ScanJob} {a : Action} (h : stepFn j a = some k) :
    k.status ≠ .queued := by
  have he := stepFn_edge h
  intro hq
  rw [hq] at he
  cases hs : j.status <;> rw [hs] at he <;> exact absurd he (by decide)

theorem reach_to_queued {j b : ScanJob} (h : Reach j b) (hb : b.status = .queued) :
    b = j := by
  rcases h.cases_tail with rfl | ⟨c, _, ⟨a, hc⟩⟩
  · rfl
  · exact absurd hb (stepFn_not_queued hc)

theorem reach_progress_mono {j k : ScanJob} (h : Reach j k)
    (hj : j.status = .running) (hk : k.status = .running) :
    j.progress ≤ k.progress := by
  induction h with
  | refl => exact le_refl _
  | @tail m k' hr hstep ih =>
      obtain ⟨a, ha⟩ := hstep
      have he := stepFn_edge ha
      rw [hk] at he
      cases hm : m.status
      case queued =>
        have hmj := reach_to_queued hr hm
        rw [hmj, hj] at hm
        exact absurd hm (by decide)
      case running =>
        exact le_trans (ih hm) (stepFn_progress_mono ha hm hk)
      all_goals rw [hm] at he; exact absurd he (by decide)

theorem reach_of_stuck {j k : ScanJob} (hstuck : ∀ a, stepFn j a = none)
    (h : Reach j k) : k = j := by
  rcases (Relation.ReflTransGen.cases_head h) with rfl | ⟨c, ⟨a, hc⟩, _⟩
  · rfl
  · rw [hstuck a] at hc; exact absurd hc (by simp)

theorem digitVal_digitChar {n : Nat} (h : n < 10) : digitVal (digitChar n) = n := by
  interval_cases n <;> rfl

theorem parseDigits_append (cs ds : List Char) :
    parseDigits (cs ++ ds) =
      ds.foldl (fun a c => a * 10 + digitVal c) (parseDigits cs) := by
  simp [parseDigits, List.foldl_append]

theorem parseDigits_digitsOf (n : Nat) : parseDigits (digitsOf n) = n := by
  induction n using Nat.strong_induction_on with
  | _ n ih =>
    rw [digitsOf]
    split
    · next hlt => simp [parseDigits, digitVal_digitChar hlt]
    · next h =>
      rw [parseDigits_append, ih (n / 10) (Nat.div_lt_self (by omega) (by omega))]
      simp [digitVal_digitChar (Nat.mod_lt n (by omega))]
      omega

theorem digitsOf_injective {n m : Nat} (h : digitsOf n = digitsOf m) : n = m := by
  have := parseDigits_digitsOf n
  rw [h, parseDigits_digitsOf] at this
  omega

theorem renderScanId_injective {n m : Nat}
    (h : renderScanId n = renderScanId m) : n = m := by
  have hd : 's' :: '_' :: digitsOf n = 's' :: '_' :: digitsOf m :=
    congrArg String.data h
  exact digitsOf_injective (by injection hd with _ hd; injection hd)

theorem stripScanId_renderScanId (n : Nat) :
    stripScanId (renderScanId n) = ⟨digitsOf n⟩ := by
  simp [stripScanId, renderScanId, jsReplaceFirst, List.isPrefixOf]

theorem submitScan_error {st : Store} {raw : String} {m : Mode} {now owner : Nat}
    {e : ScanError} (h : validateTarget raw = .error e) :
    submitScan st raw m now owner = (st, .error e) := by
  simp [submitScan, h]

theorem submitScan_wf {st : Store} {raw : String} {m : Mode} {now owner : Nat}
    (hwf : StoreWf st) : StoreWf (submitScan st raw m now owner).1 := by
  unfold submitScan
  cases hv : validateTarget raw with
  | error e => exact hwf
  | ok tgt =>
      dsimp only
      obtain ⟨hlt, hnd⟩ := hwf
      refine ⟨?_, ?_⟩
      · intro j hj
        rcases List.mem_cons.mp hj with rfl | hj
        · exact ⟨st.nextId, by dsimp only; omega, rfl⟩
        · obtain ⟨n, hn, hid⟩ := hlt j hj
          exact ⟨n, by dsimp only; omega, hid⟩
      · simp only [List.map_cons, List.nodup_cons]
        refine ⟨?_, hnd⟩
        intro hmem
        obtain ⟨j, hj, hid⟩ := List.mem_map.mp hmem
        obtain ⟨n, hn, hid'⟩ := hlt j hj
        rw [hid'] at hid
        have := renderScanId_injective hid
        omega

theorem find_scanId_eq {l : List ScanJob} (hnd : (l.map ScanJob.scanId).Nodup)
    {j : ScanJob} (hj : j ∈ l) :
    l.find? (fun k => k.scanId == j.scanId) = some j := by
  induction l with
  | nil => cases hj
  | cons a l ih =>
      simp only [List.map_cons, List.nodup_cons] at hnd
      rcases List.mem_cons.mp hj with rfl | hj
      · simp [List.find?]
      · rw [List.find?]
        have hne : (a.scanId == j.scanId) = false := by
          refine beq_false_of_ne fun hcontra => hnd.1 ?_
          exact hcontra ▸ List.mem_map.mpr ⟨j, hj, rfl⟩
        rw [hne]
        exact ih hnd.2 hj

theorem listScans_sorted (st : Store) (owner : Nat) (statusF : Option Status)
    (modeF : Option Mode) (limit offset : Nat) :
    (listScans st owner statusF modeF limit offset).Sorted recentFirst := by
  unfold listScans
  exact List.Pairwise.sublist
    ((List.take_sublist _ _).trans (List.drop_sublist _ _))
    (List.sorted_insertionSort recentFirst _)

theorem listScans_length (st : Store) (owner : Nat) (limit : Nat) :
    (listScans st owner none none limit 0).length =
      min limit (st.jobs.filter fun j => j.owner == owner).length := by
  unfold listScans
  simp [(List.perm_insertionSort recentFirst _).length_eq]

theorem length_eq_sum_countSev (fs : List Finding) :
    fs.length = countSev .critical fs + countSev .high fs + countSev .medium fs
      + countSev .low fs + countSev .info fs := by
  induction fs with
  | nil => rfl
  | cons f fs ih =>
      cases hs : f.severity <;>
        simp [countSev, List.countP_cons, hs] at ih ⊢ <;> omega

theorem trimChars_eq_nil {cs : List Char} (h : ∀ c ∈ cs, isWs c = true) :
    trimChars cs = [] := by
  unfold trimChars
  rw [List.dropWhile_eq_nil_iff.mpr h]
  simp

theorem validateTarget_ws {raw : String} (h : ∀ c ∈ raw.data, isWs c = true) :
    validateTarget raw = .error .invalidTarget := by
  unfold validateTarget validateTargetChars
  rw [trimChars_eq_nil h]
  simp [Except.map]

theorem validateTargetChars_ok {raw cs : List Char}
    (h : validateTargetChars raw = .ok cs) :
    (httpScheme.isPrefixOf (trimChars raw) = true ∧ cs = trimChars raw)
    ∨ (httpsScheme.isPrefixOf (trimChars raw) = true ∧ cs = trimChars raw)
    ∨ cs = httpsScheme ++ trimChars raw := by
  unfold validateTargetChars at h
  dsimp only at h
  split at h
  · injection h
  · split at h
    · split at h
      · injection h with h
        exact Or.inl ⟨by assumption, h.symm⟩
      · injection h
    · split at h
      · split at h
        · injection h with h
          exact Or.inr (Or.inl ⟨by assumption, h.symm⟩)
        · injection h
      · split at h
        · injection h with h
          exact Or.inr (Or.inr h.symm)
        · injection h

theorem validateTarget_hasScheme {raw t : String}
    (h : validateTarget raw = .ok t) : hasScheme t = true := by
  unfold validateTarget at h
  cases hv : validateTargetChars raw.data with
  | error e => rw [hv] at h; injection h
  | ok cs =>
      rw [hv] at h
      simp only [Except.map] at h
      injection h with h
      subst h
      rcases validateTargetChars_ok hv with ⟨hp, rfl⟩ | ⟨hp, rfl⟩ | rfl
      · simp [hasScheme, hp]
      · simp [hasScheme, hp]
      · simp [hasScheme, List.isPrefixOf_iff_prefix]

theorem validateTarget_default_scheme {raw t : String}
    (h : validateTarget raw = .ok t)
    (hns : hasScheme ⟨trimChars raw.data⟩ = false) :
    t = "https://" ++ ⟨trimChars raw.data⟩ := by
  simp only [hasScheme, Bool.or_eq_false_iff] at hns
  unfold validateTarget at h
  cases hv : validateTargetChars raw.data with
  | error e => rw [hv] at h; injection h
  | ok cs =>
      rw [hv] at h
      simp only [Except.map] at h
      injection h with h
      subst h
      rcases validateTargetChars_ok hv with ⟨hp, rfl⟩ | ⟨hp, rfl⟩ | rfl
      · rw [hns.1] at hp; exact absurd hp (by simp)
      · rw [hns.2] at hp; exact absurd hp (by simp)
      · rfl

/-! ## The claims -/

/-- C1: along any run of the scan state machine, `progress` never
decreases between successive observations of a `running` job, and in
every state reachable from a submitted job, `progress = 100` holds
exactly when `status = completed` — no non-completed job reports 100 and
every completed job reports exactly 100. -/
theorem C1_progress_monotone_and_100_iff_completed :
    (∀ j k : ScanJob, Reach j k →
        j.status = .running → k.status = .running → j.progress ≤ k.progress)
    ∧ (∀ (id target : String) (mode : Mode) (now owner : Nat) (k : ScanJob),
        Reach (mkJob id target mode now owner) k →
        (k.progress = 100 ↔ k.status = .completed)) :=
  ⟨fun _ _ h hj hk => reach_progress_mono h hj hk,
   fun id target mode now owner _ hr =>
     reach_progressInv hr (mkJob_progressInv id target mode now owner)⟩

/-- Witness for C1 at a concrete running job and a concrete fresh job. -/
theorem C1_witness :
    exJobRunning.progress ≤ ({ exJobRunning with progress := 40 } : ScanJob).progress
    ∧ ((mkJob "s_7" "https://example.com" .quick 5 1).progress = 100 ↔
        (mkJob "s_7" "https://example.com" .quick 5 1).status = .completed) :=
  ⟨C1_progress_monotone_and_100_iff_completed.1 exJobRunning
      { exJobRunning with progress := 40 }
      (Relation.ReflTransGen.single ⟨.progressUpd 40, by decide⟩) rfl rfl,
   C1_progress_monotone_and_100_iff_completed.2 "s_7" "https://example.com" .quick 5 1
      (mkJob "s_7" "https://example.com" .quick 5 1) Relation.ReflTransGen.refl⟩

/-- C2: every ScanJob starts `queued`; every transition the scheduler
can take follows an edge of `queued → running → {completed|failed|
canceled}` or `queued → canceled`; terminal states admit no transition;
and no skipping (`queued → completed/failed`) or reversing
(`running → queued`) edge is allowed. -/
theorem C2_lifecycle_state_machine :
    (∀ (id target : String) (mode : Mode) (now owner : Nat),
        (mkJob id target mode now owner).status = .queued)
    ∧ (∀ (j k : ScanJob) (a : Action), stepFn j a = some k →
        allowedEdge j.status k.status = true)
    ∧ (∀ (j : ScanJob) (a : Action), isTerminal j.status = true → stepFn j a = none)
    ∧ allowedEdge .queued .completed = false
    ∧ allowedEdge .queued .failed = false
    ∧ allowedEdge .running .queued = false :=
  ⟨fun _ _ _ _ _ => rfl, fun _ _ _ h => stepFn_edge h,
   fun j a h => stepFn_terminal_none j a h, rfl, rfl, rfl⟩

/-- Witness for C2 at the concrete start step and a completed job. -/
theorem C2_witness :
    allowedEdge exJobQueued.status exJobRunning.status = true
    ∧ stepFn exJobCompleted (.progressUpd 50) = none :=
  ⟨C2_lifecycle_state_machine.2.1 exJobQueued exJobRunning (.start 6) (by decide),
   C2_lifecycle_state_machine.2.2.1 exJobCompleted (.progressUpd 50) (by decide)⟩

/-- C3: report generation is a pure function of the stored findings —
for any two jobs with the same findings, generating the JSON and CSV
exports at any two instants yields byte-identical strings, regardless of
every other job field and of when generation runs. -/
theorem C3_report_generation_deterministic :
    ∀ (t1 t2 : Nat) (j1 j2 : ScanJob), j1.findings = j2.findings →
      generateReportJSON t1 j1 = generateReportJSON t2 j2
      ∧ generateReportCSV t1 j1 = generateReportCSV t2 j2 :=
  fun _ _ _ _ h => ⟨congrArg exportJSON h, congrArg exportCSV h⟩

/-- Witness for C3: same findings, different clock, id and creation
time — identical exports. -/
theorem C3_witness :
    generateReportJSON 0 exJobCompleted =
      generateReportJSON 99 { exJobCompleted with createdAt := 77, scanId := "s_9" }
    ∧ generateReportCSV 0 exJobCompleted =
      generateReportCSV 99 { exJobCompleted with createdAt := 77, scanId := "s_9" } :=
  C3_report_generation_deterministic 0 99 exJobCompleted
    { exJobCompleted with createdAt := 77, scanId := "s_9" } rfl

/-- C4: canceling a queued job moves it straight to `canceled` and it
can never enter `running` (every state reachable afterwards is the
canceled state itself); once a cancellation is accepted the job is
stuck, so in particular no `running`-state progress write is ever
applied to it again. -/
theorem C4_cancellation_stops_job :
    (∀ (j k : ScanJob), j.status = .queued → stepFn j .cancel = some k →
        k.status = .canceled ∧ ∀ m, Reach k m → m = k)
    ∧ (∀ (j : ScanJob) (a : Action), j.status = .canceled → stepFn j a = none)
    ∧ (∀ (j : ScanJob) (p : Nat), j.status = .canceled →
        stepFn j (.progressUpd p) = none) := by
  refine ⟨?_, ?_, ?_⟩
  · intro j k hq h
    simp only [stepFn] at h
    rw [if_pos (Or.inl hq)] at h
    injection h with h
    subst h
    exact ⟨rfl, fun m hm =>
      reach_of_stuck (fun a => stepFn_terminal_none _ a rfl) hm⟩
  · intro j a hc
    exact stepFn_terminal_none j a (by rw [hc]; rfl)
  · intro j p hc
    exact stepFn_terminal_none j _ (by rw [hc]; rfl)

/-- Witness for C4 at the concrete queued job and its canceled state. -/
theorem C4_witness :
    (exJobCanceled.status = .canceled ∧ ∀ m, Reach exJobCanceled m → m = exJobCanceled)
    ∧ stepFn exJobCanceled (.progressUpd 50) = none :=
  ⟨C4_cancellation_stops_job.1 exJobQueued exJobCanceled rfl (by decide),
   C4_cancellation_stops_job.2.2 exJobCanceled 50 rfl⟩

/-- C5: empty or whitespace-only targets are rejected with
`InvalidTargetError`; a rejected submission leaves the store untouched
(no ScanJob is created) and maps to HTTP 400; every accepted target is
returned in canonical form carrying a scheme, and when the trimmed input
had no scheme the canonical form is `https://` prepended to it.
Validation itself is a pure function of the raw string. -/
theorem C5_target_validation :
    (∀ raw : String, (∀ c ∈ raw.data, isWs c = true) →
        validateTarget raw = .error .invalidTarget)
    ∧ (∀ (st : Store) (raw : String) (m : Mode) (now owner : Nat) (e : ScanError),
        validateTarget raw = .error e → submitScan st raw m now owner = (st, .error e))
    ∧ httpStatusOf .invalidTarget = 400
    ∧ (∀ raw t : String, validateTarget raw = .ok t → hasScheme t = true)
    ∧ (∀ raw t : String, validateTarget raw = .ok t →
        hasScheme ⟨trimChars raw.data⟩ = false →
        t = "https://" ++ (⟨trimChars raw.data⟩ : String)) :=
  ⟨fun _ h => validateTarget_ws h,
   fun _ _ _ _ _ _ h => submitScan_error h,
   rfl,
   fun _ _ h => validateTarget_hasScheme h,
   fun _ _ h hns => validateTarget_default_scheme h hns⟩

/-- Witness for C5 at a whitespace-only input and at `example.com`. -/
theorem C5_witness :
    validateTarget "   " = .error .invalidTarget
    ∧ submitScan ⟨0, []⟩ "   " .quick 0 1 = (⟨0, []⟩, .error .invalidTarget)
    ∧ hasScheme "https://example.com" = true
    ∧ "https://example.com" = "https://" ++ (⟨trimChars ("example.com" : String).data⟩ : String) := by
  have h1 := C5_target_validation.1 "   " (by decide)
  have h2 := C5_target_validation.2.1 ⟨0, []⟩ "   " .quick 0 1 .invalidTarget h1
  have hok : validateTarget "example.com" = .ok "https://example.com" := by decide
  have h4 := C5_target_validation.2.2.2.1 "example.com" "https://example.com" hok
  have h5 := C5_target_validation.2.2.2.2 "example.com" "https://example.com" hok (by decide)
  exact ⟨h1, h2, h4, h5⟩

/-- C6: a download request whose `format` is outside the supported
export formats fails with `UnsupportedFormatError`, which maps to HTTP
400; in particular `format=xml` fails, and the dashboard's download
handler then materialises no file. -/
theorem C6_unsupported_format_400 :
    (∀ (j : ScanJob) (fmt : String), fmt ∉ supportedFormats →
        downloadReport j fmt = .error .unsupportedFormat)
    ∧ httpStatusOf .unsupportedFormat = 400
    ∧ (∀ j : ScanJob, downloadReport j "xml" = .error .unsupportedFormat)
    ∧ (∀ (j : ScanJob) (scanId : String),
        frontendDownloadFile (downloadReport j "xml") scanId "xml" = none) := by
  have hxml : ∀ j : ScanJob, downloadReport j "xml" = .error .unsupportedFormat := by
    intro j
    unfold downloadReport
    rw [if_neg (by decide)]
  refine ⟨?_, rfl, hxml, ?_⟩
  · intro j fmt h
    unfold downloadReport
    rw [if_neg h]
  · intro j scanId
    rw [hxml j]
    rfl

/-- Witness for C6 at the completed example job and `format=xml`. -/
theorem C6_witness :
    downloadReport exJobCompleted "xml" = .error .unsupportedFormat
    ∧ frontendDownloadFile (downloadReport exJobCompleted "xml") "s_7" "xml" = none :=
  ⟨C6_unsupported_format_400.1 exJobCompleted "xml" (by decide),
   C6_unsupported_format_400.2.2.2 exJobCompleted "s_7"⟩

/-- C7: every history query returns the owner's scans ordered by
creation time descending and truncated to `limit`; on the concrete
store of five completed scans of one user, `limit=3` returns exactly
the three most recently created. -/
theorem C7_history_sorted_and_limited :
    (∀ (st : Store) (owner : Nat) (statusF : Option Status) (modeF : Option Mode)
        (limit offset : Nat),
        (listScans st owner statusF modeF limit offset).Sorted recentFirst)
    ∧ (∀ (st : Store) (owner limit : Nat),
        (listScans st owner none none limit 0).length =
          min limit (st.jobs.filter fun j => j.owner == owner).length)
    ∧ listScans exStore5 1 none none 3 0 = [exScan 5, exScan 4, exScan 3] :=
  ⟨listScans_sorted, listScans_length, by decide⟩

/-- C8: for a completed job, the report's `summary.total` equals the
length of the vulnerability list, which equals the sum of the five
per-severity counts. -/
theorem C8_summary_consistency :
    ∀ j : ScanJob, j.status = .completed →
      (reportOf j).summary.total = (reportOf j).vulnerabilities.length
      ∧ (reportOf j).summary.total =
          (reportOf j).summary.critical + (reportOf j).summary.high
            + (reportOf j).summary.medium + (reportOf j).summary.low
            + (reportOf j).summary.info :=
  fun j _ => ⟨rfl, length_eq_sum_countSev j.findings⟩

/-- Witness for C8 at the completed example job with two findings. -/
theorem C8_witness :
    (reportOf exJobCompleted).summary.total = (reportOf exJobCompleted).vulnerabilities.length
    ∧ (reportOf exJobCompleted).summary.total =
        (reportOf exJobCompleted).summary.critical + (reportOf exJobCompleted).summary.high
          + (reportOf exJobCompleted).summary.medium + (reportOf exJobCompleted).summary.low
          + (reportOf exJobCompleted).summary.info :=
  C8_summary_consistency exJobCompleted rfl

/-- C9: two successful submissions — through the same store, with any
targets and modes, identical ones included — always return distinct
`scanId`s; submission preserves the uniqueness of all stored ids; and no
scheduler step ever changes a job's `scanId` (stability for the job's
lifetime). -/
theorem C9_distinct_stable_scan_ids :
    (∀ (st st1 st2 : Store) (raw1 raw2 : String) (m1 m2 : Mode)
        (now1 now2 o1 o2 : Nat) (j1 j2 : ScanJob),
        submitScan st raw1 m1 now1 o1 = (st1, .ok j1) →
        submitScan st1 raw2 m2 now2 o2 = (st2, .ok j2) →
        j1.scanId ≠ j2.scanId)
    ∧ (∀ (st : Store) (raw : String) (m : Mode) (now owner : Nat),
        StoreWf st → StoreWf (submitScan st raw m now owner).1)
    ∧ (∀ (j k : ScanJob) (a : Action), stepFn j a = some k → k.scanId = j.scanId) := by
  refine ⟨?_, fun _ _ _ _ _ h => submitScan_wf h, fun _ _ _ h => stepFn_scanId h⟩
  intro st st1 st2 raw1 raw2 m1 m2 now1 now2 o1 o2 j1 j2 h1 h2
  unfold submitScan at h1 h2
  cases hv1 : validateTarget raw1 <;> rw [hv1] at h1
  · injection h1 with _ hb
    injection hb
  · dsimp only at h1
    injection h1 with ha hb
    injection hb with hb
    cases hv2 : validateTarget raw2 <;> rw [hv2] at h2
    · injection h2 with _ hb2
      injection hb2
    · dsimp only at h2
      injection h2 with ha2 hb2
      injection hb2 with hb2
      subst hb hb2
      subst ha
      intro hcontra
      simp only [mkJob] at hcontra
      have := renderScanId_injective hcontra
      omega

/-- Witness for C9: two concrete submissions of the same target and
mode get the ids minted from counters 0 and 1, which differ. -/
theorem C9_witness :
    (mkJob (renderScanId 0) "https://example.com" .quick 3 1).scanId ≠
      (mkJob (renderScanId 1) "https://example.com" .quick 4 1).scanId := by
  have hok : validateTarget "example.com" = .ok "https://example.com" := by decide
  refine C9_distinct_stable_scan_ids.1 ⟨0, []⟩
    ⟨1, [mkJob (renderScanId 0) "https://example.com" .quick 3 1]⟩
    ⟨2, [mkJob (renderScanId 1) "https://example.com" .quick 4 1,
         mkJob (renderScanId 0) "https://example.com" .quick 3 1]⟩
    "example.com" "example.com" .quick .quick 3 4 1 1 _ _ ?_ ?_
  · unfold submitScan
    rw [hok]
  · unfold submitScan
    rw [hok]

/-- C10: before every per-scan request the dashboard strips the `s_`
prefix — the polling, cancel, report and download URLs and the history
row route all address the endpoint by the bare numeric suffix of the
scanId — and looking the stripped form up in a well-formed store
resolves to the very job it came from. -/
theorem C10_bare_numeric_id_roundtrip :
    (∀ n : Nat, stripScanId (renderScanId n) = ⟨digitsOf n⟩)
    ∧ (∀ n : Nat, pollScanUrl (renderScanId n) =
        apiBaseUrl ++ "/scans/" ++ (⟨digitsOf n⟩ : String) ++ "/")
    ∧ (∀ n : Nat, cancelScanUrl (renderScanId n) =
        apiBaseUrl ++ "/scans/" ++ (⟨digitsOf n⟩ : String) ++ "/cancel/")
    ∧ (∀ n : Nat, reportFetchUrl (renderScanId n) =
        apiBaseUrl ++ "/scans/" ++ (⟨digitsOf n⟩ : String) ++ "/report/")
    ∧ (∀ (n : Nat) (fmt : String), downloadReportUrl (renderScanId n) fmt =
        apiBaseUrl ++ "/scans/" ++ (⟨digitsOf n⟩ : String) ++ "/download?format=" ++ fmt)
    ∧ (∀ n : Nat, historyRowUrl (renderScanId n) = "/scans/" ++ (⟨digitsOf n⟩ : String))
    ∧ (∀ (st : Store) (j : ScanJob), StoreWf st → j ∈ st.jobs →
        lookupScanByNumeric st (stripScanId j.scanId) = some j) := by
  refine ⟨stripScanId_renderScanId, ?_, ?_, ?_, ?_, ?_, ?_⟩
  · intro n; rw [pollScanUrl, stripScanId_renderScanId]
  · intro n; rw [cancelScanUrl, stripScanId_renderScanId]
  · intro n; rw [reportFetchUrl, stripScanId_renderScanId]
  · intro n fmt; rw [downloadReportUrl, stripScanId_renderScanId]
  · intro n; rw [historyRowUrl, stripScanId_renderScanId]
  · intro st j hwf hj
    obtain ⟨n, _, hid⟩ := hwf.1 j hj
    rw [hid, stripScanId_renderScanId n]
    unfold lookupScanByNumeric
    rw [show ("s_" ++ (⟨digitsOf n⟩ : String)) = renderScanId n from rfl, ← hid]
    exact find_scanId_eq hwf.2 hj

/-- Witness for C10: in the concrete two-job store the stripped id of
the second job resolves back to that job. -/
theorem C10_witness :
    lookupScanByNumeric exStoreRT
      (stripScanId (mkJob (renderScanId 1) "https://b.com" .full 1 1).scanId)
      = some (mkJob (renderScanId 1) "https://b.com" .full 1 1) := by
  have hwf : StoreWf exStoreRT := by
    constructor
    · intro j hj
      rcases List.mem_cons.mp hj with rfl | hj
      · exact ⟨0, by decide, rfl⟩
      · rcases List.mem_cons.mp hj with rfl | hj
        · exact ⟨1, by decide, rfl⟩
        · cases hj
    · simp only [exStoreRT, List.map_cons, List.map_nil, List.nodup_cons,
        List.not_mem_nil, not_false_eq_true, and_true, List.nodup_nil,
        List.mem_singleton, mkJob]
      intro hmem
      exact absurd (renderScanId_injective hmem) (by omega)
  exact C10_bare_numeric_id_roundtrip.2.2.2.2.2.2 exStoreRT
    (mkJob (renderScanId 1) "https://b.com" .full 1 1) hwf
    (List.mem_cons_of_mem _ (List.mem_cons_self _ _))

end VulnScan

